import Mathlib

/-!
Verification of the Haier heat-pump integration core: heating-curve engine,
antifreeze controller, polling coordinator, and Modbus register link.
Python floats are modelled as rationals; the register codec (PyHaier) is an
external capability and is modelled as an uninterpreted function parameter.
-/

namespace Haier

/-! ## Constants (const.py) -/

def CH_TEMP_MIN : ℚ := 25
def CH_TEMP_MAX : ℚ := 55
def CH_TEMP_STEP : ℚ := 1/2

def DEFAULT_ANTIFREEZE_WARNING_TEMP : ℚ := 5
def DEFAULT_ANTIFREEZE_CRITICAL_TEMP : ℚ := 2
def DEFAULT_ANTIFREEZE_EMERGENCY_CH_TEMP : ℚ := 30
def DEFAULT_ANTIFREEZE_RECOVERY_TEMP : ℚ := 20

def DEFAULT_CURVE_SLOPE : ℚ := 3/2
def DEFAULT_CURVE_BASE_TEMP : ℚ := 30
def DEFAULT_CURVE_OFFSET : ℚ := 0
def DEFAULT_CURVE_SETPOINT : ℚ := 21

def CURVE_TYPE_FORMULA : String := "formula"
def CURVE_TYPE_POINTS : String := "points"

/-- Default point-based curve from const.py, as (outdoor_temp, water_temp) pairs. -/
def DEFAULT_CURVE_POINTS : List (ℚ × ℚ) := [(-20, 50), (-10, 45), (0, 38), (10, 32), (20, 25)]

def MIN_WRITE_INTERVAL : ℚ := 5

def REG_CORE_COUNT : ℕ := 6
def REG_MODE_COUNT : ℕ := 1

/-! ## Python rounding

Python's built-in round() rounds to the nearest integer, ties to even.
The floor is computed as num / den (euclidean division, positive denominator). -/

/-- Python round-half-to-even on a rational, returning an integer. -/
def pyRound (q : ℚ) : ℤ :=
  let f := q.num / (q.den : ℤ)
  let r := q - (f : ℚ)
  if r < 1/2 then f
  else if 1/2 < r then f + 1
  else if f % 2 = 0 then f else f + 1

lemma num_div_den_eq_floor (q : ℚ) : q.num / (q.den : ℤ) = ⌊q⌋ := (Rat.floor_def).symm

lemma pyRound_def_floor (q : ℚ) :
    pyRound q =
      if q - (⌊q⌋ : ℚ) < 1/2 then ⌊q⌋
      else if 1/2 < q - (⌊q⌋ : ℚ) then ⌊q⌋ + 1
      else if ⌊q⌋ % 2 = 0 then ⌊q⌋ else ⌊q⌋ + 1 := by
  simp only [pyRound, num_div_den_eq_floor]

lemma floor_le_pyRound (q : ℚ) : ⌊q⌋ ≤ pyRound q := by
  rw [pyRound_def_floor]
  split_ifs <;> omega

lemma pyRound_le_floor_add_one (q : ℚ) : pyRound q ≤ ⌊q⌋ + 1 := by
  rw [pyRound_def_floor]
  split_ifs <;> omega

lemma le_pyRound_of_le {n : ℤ} {q : ℚ} (h : (n : ℚ) ≤ q) : n ≤ pyRound q := by
  have h1 : n ≤ ⌊q⌋ := Int.le_floor.mpr h
  have h2 := floor_le_pyRound q
  omega

lemma pyRound_le_of_le {q : ℚ} {n : ℤ} (h : q ≤ (n : ℚ)) : pyRound q ≤ n := by
  have hf : ⌊q⌋ ≤ n := by
    have h1 : ⌊q⌋ ≤ ⌊(n : ℚ)⌋ := Int.floor_mono h
    simpa using h1
  have hfl : (⌊q⌋ : ℚ) ≤ q := Int.floor_le q
  have key : ¬(q - (⌊q⌋ : ℚ) < 1/2) → ⌊q⌋ + 1 ≤ n := by
    intro hn
    have h2 : (⌊q⌋ : ℚ) + 1/2 ≤ q := by linarith
    have h3 : (⌊q⌋ : ℚ) < (n : ℚ) := by linarith
    have h4 : ⌊q⌋ < n := by exact_mod_cast h3
    omega
  rw [pyRound_def_floor]
  split_ifs with h1 h2 h3
  · exact hf
  · exact key h1
  · exact hf
  · exact key h1

lemma pyRound_mono {a b : ℚ} (h : a ≤ b) : pyRound a ≤ pyRound b := by
  rcases lt_or_eq_of_le (Int.floor_mono h) with hf | hf
  · calc pyRound a ≤ ⌊a⌋ + 1 := pyRound_le_floor_add_one a
      _ ≤ ⌊b⌋ := by omega
      _ ≤ pyRound b := floor_le_pyRound b
  · rw [pyRound_def_floor, pyRound_def_floor, hf]
    split_ifs <;> first
      | omega
      | (exfalso; linarith)

/-! ## clamp_ch_temp (heating_curve.py lines 24-28) -/

/-- Clamp a temperature to the safe CH range and round to the 0.5 degree step,
mirroring clamp_ch_temp in heating_curve.py. -/
def clamp_ch_temp (temp : ℚ) : ℚ :=
  ((pyRound ((max CH_TEMP_MIN (min CH_TEMP_MAX temp)) / CH_TEMP_STEP) : ℤ) : ℚ) * CH_TEMP_STEP

lemma clamp_ch_temp_range (temp : ℚ) :
    CH_TEMP_MIN ≤ clamp_ch_temp temp ∧ clamp_ch_temp temp ≤ CH_TEMP_MAX ∧
      ∃ n : ℤ, clamp_ch_temp temp = (n : ℚ) * CH_TEMP_STEP := by
  have hstep : CH_TEMP_STEP = 1/2 := rfl
  have hmin : CH_TEMP_MIN = 25 := rfl
  have hmax : CH_TEMP_MAX = 55 := rfl
  unfold clamp_ch_temp
  rw [hstep, hmin, hmax]
  set t := max (25 : ℚ) (min 55 temp) with hts
  have ht1 : (25 : ℚ) ≤ t := le_max_left _ _
  have ht2 : t ≤ 55 := max_le (by norm_num) (min_le_left _ _)
  have hdiv : t / (1/2 : ℚ) = 2 * t := by ring
  have h50 : ((50 : ℤ) : ℚ) ≤ t / (1/2 : ℚ) := by
    rw [hdiv]; push_cast; linarith
  have h110 : t / (1/2 : ℚ) ≤ ((110 : ℤ) : ℚ) := by
    rw [hdiv]; push_cast; linarith
  have hlo : (50 : ℤ) ≤ pyRound (t / (1/2 : ℚ)) := le_pyRound_of_le h50
  have hhi : pyRound (t / (1/2 : ℚ)) ≤ (110 : ℤ) := pyRound_le_of_le h110
  have hloQ : (50 : ℚ) ≤ ((pyRound (t / (1/2 : ℚ)) : ℤ) : ℚ) := by exact_mod_cast hlo
  have hhiQ : ((pyRound (t / (1/2 : ℚ)) : ℤ) : ℚ) ≤ (110 : ℚ) := by exact_mod_cast hhi
  exact ⟨by linarith, by linarith, ⟨pyRound (t / (1/2 : ℚ)), rfl⟩⟩

lemma clamp_ch_temp_mono {a b : ℚ} (h : a ≤ b) : clamp_ch_temp a ≤ clamp_ch_temp b := by
  unfold clamp_ch_temp
  have h1 : max CH_TEMP_MIN (min CH_TEMP_MAX a) ≤ max CH_TEMP_MIN (min CH_TEMP_MAX b) :=
    max_le_max le_rfl (min_le_min le_rfl h)
  have hstep : (0 : ℚ) ≤ CH_TEMP_STEP⁻¹ := by
    have : CH_TEMP_STEP = 1/2 := rfl
    rw [this]; norm_num
  have h2 : max CH_TEMP_MIN (min CH_TEMP_MAX a) / CH_TEMP_STEP ≤
      max CH_TEMP_MIN (min CH_TEMP_MAX b) / CH_TEMP_STEP := by
    rw [div_eq_mul_inv, div_eq_mul_inv]
    exact mul_le_mul_of_nonneg_right h1 hstep
  have h3 := pyRound_mono h2
  have h3Q : ((pyRound (max CH_TEMP_MIN (min CH_TEMP_MAX a) / CH_TEMP_STEP) : ℤ) : ℚ) ≤
      ((pyRound (max CH_TEMP_MIN (min CH_TEMP_MAX b) / CH_TEMP_STEP) : ℤ) : ℚ) := by
    exact_mod_cast h3
  have hstep2 : (0 : ℚ) ≤ CH_TEMP_STEP := by
    have : CH_TEMP_STEP = 1/2 := rfl
    rw [this]; norm_num
  exact mul_le_mul_of_nonneg_right h3Q hstep2

/-! ## Heating curve engine (heating_curve.py) -/

/-- Formula mode: target = base_temp + slope * (setpoint - outdoor_temp) + offset,
then clamped (calculate_formula_curve, heating_curve.py lines 31-53). -/
def calculate_formula_curve (outdoor_temp slope base_temp offset setpoint : ℚ) : ℚ :=
  clamp_ch_temp (base_temp + slope * (setpoint - outdoor_temp) + offset)

/-- Empty point dictionaries are replaced by the defaults
(the `if not points:` guard, heating_curve.py lines 69-70). -/
def effPoints (pts : List (ℚ × ℚ)) : List (ℚ × ℚ) :=
  if pts.isEmpty then DEFAULT_CURVE_POINTS else pts

/-- Python sorted(points.items()) by outdoor temperature. -/
def sortPoints (pts : List (ℚ × ℚ)) : List (ℚ × ℚ) :=
  List.insertionSort (fun a b => a.1 ≤ b.1) pts

/-- The interpolation loop of calculate_point_curve (heating_curve.py lines 88-96):
find the first adjacent pair whose outdoor range contains the input and
linearly interpolate; none when no pair matches. -/
def interpLoop (outdoor_temp : ℚ) : List (ℚ × ℚ) → Option ℚ
  | p0 :: p1 :: rest =>
      if p0.1 ≤ outdoor_temp ∧ outdoor_temp ≤ p1.1 then
        if p1.1 = p0.1 then some (clamp_ch_temp p0.2)
        else some (clamp_ch_temp
          (p0.2 + (outdoor_temp - p0.1) / (p1.1 - p0.1) * (p1.2 - p0.2)))
      else interpLoop outdoor_temp (p1 :: rest)
  | _ => none

/-- Point-based curve (calculate_point_curve, heating_curve.py lines 56-98). -/
def calculate_point_curve (outdoor_temp : ℚ) (points : List (ℚ × ℚ)) : ℚ :=
  match sortPoints (effPoints points) with
  | [] => clamp_ch_temp DEFAULT_CURVE_BASE_TEMP
  | [p] => clamp_ch_temp p.2
  | p :: q :: rest =>
      if outdoor_temp ≤ p.1 then clamp_ch_temp p.2
      else if ((q :: rest).getLast (List.cons_ne_nil q rest)).1 ≤ outdoor_temp then
        clamp_ch_temp ((q :: rest).getLast (List.cons_ne_nil q rest)).2
      else
        match interpLoop outdoor_temp (p :: q :: rest) with
        | some r => r
        | none => clamp_ch_temp DEFAULT_CURVE_BASE_TEMP

/-- The value found under the "points" key of the curve parameters: a
dictionary of numeric pairs, a string that parses (JSON or "k:v, ..." format)
into such a dictionary, an unparseable string, or a value of another type. -/
inductive PointsRaw
  | pdict (pts : List (ℚ × ℚ))
  | pstr (parsed : Option (List (ℚ × ℚ)))
  | other

/-- Curve parameters as read from configuration with defaults filled in
(curve_params.get calls in calculate_target_temp). -/
structure CurveParams where
  slope : ℚ
  base_temp : ℚ
  offset : ℚ
  setpoint : ℚ
  points : PointsRaw

/-- Dispatcher calculate_target_temp (heating_curve.py lines 101-157):
formula mode, points mode with string/dict handling, and the fallback to
the clamped default base temperature on unknown type or parse failure. -/
def calculate_target_temp (outdoor_temp : ℚ) (curve_type : String) (p : CurveParams) : ℚ :=
  if curve_type = CURVE_TYPE_FORMULA then
    calculate_formula_curve outdoor_temp p.slope p.base_temp p.offset p.setpoint
  else if curve_type = CURVE_TYPE_POINTS then
    match p.points with
    | .pdict pts => calculate_point_curve outdoor_temp pts
    | .pstr (some pts) => calculate_point_curve outdoor_temp pts
    | .pstr none => clamp_ch_temp DEFAULT_CURVE_BASE_TEMP
    | .other => clamp_ch_temp DEFAULT_CURVE_BASE_TEMP
  else clamp_ch_temp DEFAULT_CURVE_BASE_TEMP

unseal Rat.add Rat.sub Rat.mul Rat.inv in
example : calculate_point_curve 0 [] = 38 := by decide

unseal Rat.add Rat.sub Rat.mul Rat.inv in
example : clamp_ch_temp DEFAULT_CURVE_BASE_TEMP = 30 := by decide

unseal Rat.add Rat.sub Rat.mul Rat.inv in
example : calculate_point_curve (-5) [] = 83/2 := by decide

/-! ## Structural lemmas about the point curve -/

instance instIsTotalPointLe : IsTotal (ℚ × ℚ) (fun a b => a.1 ≤ b.1) :=
  ⟨fun a b => le_total a.1 b.1⟩

instance instIsTransPointLe : IsTrans (ℚ × ℚ) (fun a b => a.1 ≤ b.1) :=
  ⟨fun _ _ _ h1 h2 => le_trans h1 h2⟩

lemma sortPoints_pairwise (pts : List (ℚ × ℚ)) :
    (sortPoints pts).Pairwise (fun a b : ℚ × ℚ => a.1 ≤ b.1) :=
  List.sorted_insertionSort _ pts

lemma pairwise_getD_mono {l : List (ℚ × ℚ)}
    (h : l.Pairwise (fun a b : ℚ × ℚ => a.1 ≤ b.1))
    {i j : ℕ} (hij : i ≤ j) (hj : j < l.length) :
    (l.getD i (0, 0)).1 ≤ (l.getD j (0, 0)).1 := by
  rcases eq_or_lt_of_le hij with rfl | hlt
  · exact le_refl _
  · rw [List.getD_eq_getElem _ _ (lt_of_le_of_lt hij hj), List.getD_eq_getElem _ _ hj]
    exact List.pairwise_iff_getElem.mp h i j (lt_of_le_of_lt hij hj) hj hlt

lemma interpLoop_eq_clamp (outdoor : ℚ) :
    ∀ (l : List (ℚ × ℚ)) (r : ℚ), interpLoop outdoor l = some r →
      ∃ t, r = clamp_ch_temp t := by
  intro l
  induction l with
  | nil => intro r h; simp [interpLoop] at h
  | cons p0 tail ih =>
    cases tail with
    | nil => intro r h; simp [interpLoop] at h
    | cons p1 rest =>
      intro r h
      rw [interpLoop] at h
      split_ifs at h with h1 h2
      · exact ⟨p0.2, (Option.some.inj h).symm⟩
      · exact ⟨_, (Option.some.inj h).symm⟩
      · exact ih r h

lemma point_curve_eq_clamp (outdoor : ℚ) (pts : List (ℚ × ℚ)) :
    ∃ t, calculate_point_curve outdoor pts = clamp_ch_temp t := by
  unfold calculate_point_curve
  rcases hs : sortPoints (effPoints pts) with _ | ⟨p, _ | ⟨q, rest⟩⟩
  · exact ⟨DEFAULT_CURVE_BASE_TEMP, rfl⟩
  · exact ⟨p.2, rfl⟩
  · dsimp only
    split_ifs with h1 h2
    · exact ⟨p.2, rfl⟩
    · exact ⟨_, rfl⟩
    · rcases hI : interpLoop outdoor (p :: q :: rest) with _ | r
      · exact ⟨DEFAULT_CURVE_BASE_TEMP, rfl⟩
      · obtain ⟨t, ht⟩ := interpLoop_eq_clamp outdoor (p :: q :: rest) r hI
        exact ⟨t, ht⟩

lemma getLast_cons_eq_getD (p q : ℚ × ℚ) (rest : List (ℚ × ℚ)) :
    (q :: rest).getLast (List.cons_ne_nil q rest) =
      (p :: q :: rest).getD ((p :: q :: rest).length - 1) (0, 0) := by
  rw [List.getLast_eq_getElem]
  rw [List.getD_eq_getElem _ _ (by simp)]
  simp

lemma interpLoop_segment (outdoor : ℚ) :
    ∀ (l : List (ℚ × ℚ)), l.Pairwise (fun a b : ℚ × ℚ => a.1 ≤ b.1) →
    ∀ i : ℕ, i + 1 < l.length →
    (l.getD i (0, 0)).1 < outdoor → outdoor < (l.getD (i + 1) (0, 0)).1 →
    interpLoop outdoor l =
      some (clamp_ch_temp ((l.getD i (0, 0)).2 +
        (outdoor - (l.getD i (0, 0)).1) /
          ((l.getD (i + 1) (0, 0)).1 - (l.getD i (0, 0)).1) *
        ((l.getD (i + 1) (0, 0)).2 - (l.getD i (0, 0)).2))) := by
  intro l
  induction l with
  | nil => intro _ i hi _ _; simp at hi
  | cons p0 tail ih =>
    intro hsort i hi hlo hhi
    cases tail with
    | nil => simp at hi
    | cons p1 rest =>
      cases i with
      | zero =>
        simp only [List.getD_cons_zero, List.getD_cons_succ] at hlo hhi ⊢
        rw [interpLoop]
        rw [if_pos ⟨le_of_lt hlo, le_of_lt hhi⟩]
        rw [if_neg (by intro he; rw [he] at hhi; linarith)]
      | succ j =>
        have htail : (p1 :: rest).Pairwise (fun a b : ℚ × ℚ => a.1 ≤ b.1) :=
          List.Pairwise.of_cons hsort
        have hjlen : j + 1 < (p1 :: rest).length := by
          simp only [List.length_cons] at hi ⊢; omega
        have hlo2 : ((p1 :: rest).getD j (0, 0)).1 < outdoor := by
          simpa only [List.getD_cons_succ] using hlo
        have hhi2 : outdoor < ((p1 :: rest).getD (j + 1) (0, 0)).1 := by
          simpa only [List.getD_cons_succ] using hhi
        rw [interpLoop]
        have hskip : ¬(p0.1 ≤ outdoor ∧ outdoor ≤ p1.1) := by
          intro hc
          have h0j : ((p1 :: rest).getD 0 (0, 0)).1 ≤ ((p1 :: rest).getD j (0, 0)).1 :=
            pairwise_getD_mono htail (Nat.zero_le j) (by omega)
          simp only [List.getD_cons_zero] at h0j
          linarith [hc.2]
        rw [if_neg hskip]
        simp only [List.getD_cons_succ]
        exact ih htail j hjlen hlo2 hhi2

lemma point_curve_interior (outdoor : ℚ) (pts : List (ℚ × ℚ)) (i : ℕ)
    (hi : i + 1 < (sortPoints (effPoints pts)).length)
    (hlo : ((sortPoints (effPoints pts)).getD i (0, 0)).1 < outdoor)
    (hhi : outdoor < ((sortPoints (effPoints pts)).getD (i + 1) (0, 0)).1) :
    calculate_point_curve outdoor pts =
      clamp_ch_temp (((sortPoints (effPoints pts)).getD i (0, 0)).2 +
        (outdoor - ((sortPoints (effPoints pts)).getD i (0, 0)).1) /
          (((sortPoints (effPoints pts)).getD (i + 1) (0, 0)).1 -
            ((sortPoints (effPoints pts)).getD i (0, 0)).1) *
        (((sortPoints (effPoints pts)).getD (i + 1) (0, 0)).2 -
          ((sortPoints (effPoints pts)).getD i (0, 0)).2)) := by
  have hsort := sortPoints_pairwise (effPoints pts)
  unfold calculate_point_curve
  rcases hs : sortPoints (effPoints pts) with _ | ⟨p, _ | ⟨q, rest⟩⟩
  · rw [hs] at hi; simp at hi
  · rw [hs] at hi; simp at hi
  · rw [hs] at hsort hi hlo hhi
    dsimp only
    have hfirst : ¬(outdoor ≤ p.1) := by
      have h0 : ((p :: q :: rest).getD 0 (0, 0)).1 ≤ ((p :: q :: rest).getD i (0, 0)).1 :=
        pairwise_getD_mono hsort (Nat.zero_le i) (by omega)
      simp only [List.getD_cons_zero] at h0
      push_neg
      linarith
    rw [if_neg hfirst]
    have hlast : ¬(((q :: rest).getLast (List.cons_ne_nil q rest)).1 ≤ outdoor) := by
      rw [getLast_cons_eq_getD p q rest]
      have h2 : ((p :: q :: rest).getD (i + 1) (0, 0)).1 ≤
          ((p :: q :: rest).getD ((p :: q :: rest).length - 1) (0, 0)).1 := by
        apply pairwise_getD_mono hsort
        · simp only [List.length_cons] at hi ⊢; omega
        · simp only [List.length_cons]; omega
      push_neg
      linarith
    rw [if_neg hlast]
    rw [interpLoop_segment outdoor (p :: q :: rest) hsort i hi hlo hhi]

/-- C2: for every finite outdoor temperature and every curve configuration
(formula or points, well-formed or malformed), the heating-curve output lies
in [CH_TEMP_MIN, CH_TEMP_MAX] = [25, 55] and is an integer multiple of
CH_TEMP_STEP = 1/2. -/
theorem target_temp_safe_range (outdoor : ℚ) (curve_type : String) (p : CurveParams) :
    CH_TEMP_MIN ≤ calculate_target_temp outdoor curve_type p ∧
    calculate_target_temp outdoor curve_type p ≤ CH_TEMP_MAX ∧
    ∃ n : ℤ, calculate_target_temp outdoor curve_type p = (n : ℚ) * CH_TEMP_STEP := by
  have key : ∃ t, calculate_target_temp outdoor curve_type p = clamp_ch_temp t := by
    unfold calculate_target_temp
    split_ifs with h1 h2
    · exact ⟨p.base_temp + p.slope * (p.setpoint - outdoor) + p.offset, rfl⟩
    · cases hp : p.points with
      | pdict pts => exact point_curve_eq_clamp outdoor pts
      | pstr parsed =>
        cases parsed with
        | some pts => exact point_curve_eq_clamp outdoor pts
        | none => exact ⟨DEFAULT_CURVE_BASE_TEMP, rfl⟩
      | other => exact ⟨DEFAULT_CURVE_BASE_TEMP, rfl⟩
    · exact ⟨DEFAULT_CURVE_BASE_TEMP, rfl⟩
  obtain ⟨t, ht⟩ := key
  rw [ht]
  exact clamp_ch_temp_range t

unseal Rat.add Rat.sub Rat.mul Rat.inv in
/-- C6 counterexample: with zero configured points the curve does NOT return
the clamped default base temperature (30); the empty dictionary is replaced by
the default points, so at outdoor 0 the result is 38. -/
theorem point_curve_zero_points_counterexample :
    calculate_point_curve 0 [] ≠ clamp_ch_temp DEFAULT_CURVE_BASE_TEMP ∧
    calculate_point_curve 0 [] = 38 ∧ clamp_ch_temp DEFAULT_CURVE_BASE_TEMP = 30 := by
  refine ⟨by decide, by decide, by decide⟩

/-- C6 (amended): with zero configured points the default point set replaces
the empty configuration (result is the default-points curve value, not
base_temp); with one point the result is that point's clamped water
temperature; at or below the lowest point the lowest point's clamped water
temperature; at or above the highest point (for distinct outdoor keys) the
highest point's clamped water temperature; strictly between two adjacent
sorted points the clamped linear interpolation by outdoor fraction. -/
theorem point_curve_cases (outdoor : ℚ) (pts : List (ℚ × ℚ)) :
    (pts = [] →
      calculate_point_curve outdoor pts = calculate_point_curve outdoor DEFAULT_CURVE_POINTS) ∧
    (∀ p : ℚ × ℚ, sortPoints (effPoints pts) = [p] →
      calculate_point_curve outdoor pts = clamp_ch_temp p.2) ∧
    (2 ≤ (sortPoints (effPoints pts)).length →
      outdoor ≤ ((sortPoints (effPoints pts)).getD 0 (0, 0)).1 →
      calculate_point_curve outdoor pts =
        clamp_ch_temp ((sortPoints (effPoints pts)).getD 0 (0, 0)).2) ∧
    (2 ≤ (sortPoints (effPoints pts)).length →
      ((sortPoints (effPoints pts)).getD 0 (0, 0)).1 < outdoor →
      ((sortPoints (effPoints pts)).getD
          ((sortPoints (effPoints pts)).length - 1) (0, 0)).1 ≤ outdoor →
      calculate_point_curve outdoor pts =
        clamp_ch_temp ((sortPoints (effPoints pts)).getD
          ((sortPoints (effPoints pts)).length - 1) (0, 0)).2) ∧
    (∀ i : ℕ, i + 1 < (sortPoints (effPoints pts)).length →
      ((sortPoints (effPoints pts)).getD i (0, 0)).1 < outdoor →
      outdoor < ((sortPoints (effPoints pts)).getD (i + 1) (0, 0)).1 →
      calculate_point_curve outdoor pts =
        clamp_ch_temp (((sortPoints (effPoints pts)).getD i (0, 0)).2 +
          (outdoor - ((sortPoints (effPoints pts)).getD i (0, 0)).1) /
            (((sortPoints (effPoints pts)).getD (i + 1) (0, 0)).1 -
              ((sortPoints (effPoints pts)).getD i (0, 0)).1) *
          (((sortPoints (effPoints pts)).getD (i + 1) (0, 0)).2 -
            ((sortPoints (effPoints pts)).getD i (0, 0)).2))) := by
  refine ⟨?_, ?_, ?_, ?_, ?_⟩
  · intro h
    subst h
    rfl
  · intro p hp
    unfold calculate_point_curve
    rw [hp]
  · intro hlen hle
    unfold calculate_point_curve
    rcases hs : sortPoints (effPoints pts) with _ | ⟨p, _ | ⟨q, rest⟩⟩
    · rw [hs] at hlen; simp at hlen
    · rw [hs] at hlen; simp at hlen
    · rw [hs] at hle
      simp only [List.getD_cons_zero] at hle
      dsimp only
      rw [if_pos hle]
      simp [List.getD_cons_zero]
  · intro hlen h0 hlast
    unfold calculate_point_curve
    rcases hs : sortPoints (effPoints pts) with _ | ⟨p, _ | ⟨q, rest⟩⟩
    · rw [hs] at hlen; simp at hlen
    · rw [hs] at hlen; simp at hlen
    · rw [hs] at h0 hlast
      simp only [List.getD_cons_zero] at h0
      dsimp only
      rw [if_neg (by push_neg; exact h0)]
      rw [getLast_cons_eq_getD p q rest]
      rw [if_pos hlast]
  · intro i hi hlo hhi
    exact point_curve_interior outdoor pts i hi hlo hhi

unseal Rat.add Rat.sub Rat.mul Rat.inv in
theorem point_curve_cases_witness :
    calculate_point_curve 30 [(0, 40), (10, 28)] = clamp_ch_temp 28 := by
  have h := (point_curve_cases 30 [(0, 40), (10, 28)]).2.2.2.1
    (by decide) (by decide) (by decide)
  have h3 : ((sortPoints (effPoints [(0, 40), (10, 28)])).getD
      ((sortPoints (effPoints [(0, 40), (10, 28)])).length - 1) (0, 0)).2 = 28 := by decide
  rw [h3] at h
  exact h

/-- C7: for x and y both strictly between the same two adjacent sorted points,
the points-mode curve is monotonic in the direction of the segment's water
temperatures, and never overshoots the segment endpoints' clamped water
temperatures. -/
theorem point_curve_segment_monotone (pts : List (ℚ × ℚ)) (i : ℕ) (x y : ℚ)
    (hi : i + 1 < (sortPoints (effPoints pts)).length)
    (hx : ((sortPoints (effPoints pts)).getD i (0, 0)).1 < x)
    (hxy : x ≤ y)
    (hy : y < ((sortPoints (effPoints pts)).getD (i + 1) (0, 0)).1) :
    (((sortPoints (effPoints pts)).getD (i + 1) (0, 0)).2 ≤
        ((sortPoints (effPoints pts)).getD i (0, 0)).2 →
      calculate_point_curve y pts ≤ calculate_point_curve x pts) ∧
    (((sortPoints (effPoints pts)).getD i (0, 0)).2 ≤
        ((sortPoints (effPoints pts)).getD (i + 1) (0, 0)).2 →
      calculate_point_curve x pts ≤ calculate_point_curve y pts) ∧
    (min (clamp_ch_temp ((sortPoints (effPoints pts)).getD i (0, 0)).2)
        (clamp_ch_temp ((sortPoints (effPoints pts)).getD (i + 1) (0, 0)).2) ≤
      calculate_point_curve x pts ∧
     calculate_point_curve x pts ≤
      max (clamp_ch_temp ((sortPoints (effPoints pts)).getD i (0, 0)).2)
        (clamp_ch_temp ((sortPoints (effPoints pts)).getD (i + 1) (0, 0)).2)) ∧
    (min (clamp_ch_temp ((sortPoints (effPoints pts)).getD i (0, 0)).2)
        (clamp_ch_temp ((sortPoints (effPoints pts)).getD (i + 1) (0, 0)).2) ≤
      calculate_point_curve y pts ∧
     calculate_point_curve y pts ≤
      max (clamp_ch_temp ((sortPoints (effPoints pts)).getD i (0, 0)).2)
        (clamp_ch_temp ((sortPoints (effPoints pts)).getD (i + 1) (0, 0)).2)) := by
  set a := ((sortPoints (effPoints pts)).getD i (0, 0)).1 with ha
  set c := ((sortPoints (effPoints pts)).getD i (0, 0)).2 with hc
  set b := ((sortPoints (effPoints pts)).getD (i + 1) (0, 0)).1 with hb
  set d := ((sortPoints (effPoints pts)).getD (i + 1) (0, 0)).2 with hd
  have hxb : x < b := lt_of_le_of_lt hxy hy
  have hay : a < y := lt_of_lt_of_le hx hxy
  have hab : a < b := lt_trans hx hxb
  have hba : (0 : ℚ) < b - a := by linarith
  have hcx := point_curve_interior x pts i hi hx hxb
  have hcy := point_curve_interior y pts i hi hay hy
  rw [← ha, ← hb, ← hc, ← hd] at hcx hcy
  rw [hcx, hcy]
  have hkey : ∀ t : ℚ, a < t → t < b →
      min c d ≤ c + (t - a) / (b - a) * (d - c) ∧
      c + (t - a) / (b - a) * (d - c) ≤ max c d := by
    intro t h1 h2
    have hr0 : 0 ≤ (t - a) / (b - a) := div_nonneg (by linarith) (le_of_lt hba)
    have hr1 : (t - a) / (b - a) ≤ 1 := (div_le_one hba).mpr (by linarith)
    rcases le_total c d with hcd | hdc
    · constructor
      · have h3 : 0 ≤ (t - a) / (b - a) * (d - c) := mul_nonneg hr0 (by linarith)
        have h4 : min c d = c := min_eq_left hcd
        linarith
      · have h3 : d - (c + (t - a) / (b - a) * (d - c)) =
            (1 - (t - a) / (b - a)) * (d - c) := by ring
        have h4 : 0 ≤ (1 - (t - a) / (b - a)) * (d - c) :=
          mul_nonneg (by linarith) (by linarith)
        have h5 : max c d = d := max_eq_right hcd
        linarith
    · constructor
      · have h3 : (c + (t - a) / (b - a) * (d - c)) - d =
            (1 - (t - a) / (b - a)) * (c - d) := by ring
        have h4 : 0 ≤ (1 - (t - a) / (b - a)) * (c - d) :=
          mul_nonneg (by linarith) (by linarith)
        have h5 : min c d = d := min_eq_right hdc
        linarith
      · have h3 : c - (c + (t - a) / (b - a) * (d - c)) =
            (t - a) / (b - a) * (c - d) := by ring
        have h4 : 0 ≤ (t - a) / (b - a) * (c - d) := mul_nonneg hr0 (by linarith)
        have h5 : max c d = c := max_eq_left hdc
        linarith
  have hdiff : (c + (y - a) / (b - a) * (d - c)) - (c + (x - a) / (b - a) * (d - c)) =
      ((y - x) * (d - c)) / (b - a) := by
    field_simp
    ring
  refine ⟨?_, ?_, ?_, ?_⟩
  · intro hdc
    apply clamp_ch_temp_mono
    have h4 : ((y - x) * (d - c)) / (b - a) ≤ 0 :=
      div_nonpos_of_nonpos_of_nonneg
        (mul_nonpos_of_nonneg_of_nonpos (by linarith) (by linarith)) (le_of_lt hba)
    linarith
  · intro hcd
    apply clamp_ch_temp_mono
    have h4 : 0 ≤ ((y - x) * (d - c)) / (b - a) :=
      div_nonneg (mul_nonneg (by linarith) (by linarith)) (le_of_lt hba)
    linarith
  · obtain ⟨h1, h2⟩ := hkey x hx hxb
    constructor
    · calc min (clamp_ch_temp c) (clamp_ch_temp d)
          ≤ clamp_ch_temp (min c d) := by
            rcases le_total c d with h | h
            · rw [min_eq_left h]; exact min_le_left _ _
            · rw [min_eq_right h]; exact min_le_right _ _
        _ ≤ clamp_ch_temp (c + (x - a) / (b - a) * (d - c)) := clamp_ch_temp_mono h1
    · calc clamp_ch_temp (c + (x - a) / (b - a) * (d - c))
          ≤ clamp_ch_temp (max c d) := clamp_ch_temp_mono h2
        _ ≤ max (clamp_ch_temp c) (clamp_ch_temp d) := by
            rcases le_total c d with h | h
            · rw [max_eq_right h]; exact le_max_right _ _
            · rw [max_eq_left h]; exact le_max_left _ _
  · obtain ⟨h1, h2⟩ := hkey y hay hy
    constructor
    · calc min (clamp_ch_temp c) (clamp_ch_temp d)
          ≤ clamp_ch_temp (min c d) := by
            rcases le_total c d with h | h
            · rw [min_eq_left h]; exact min_le_left _ _
            · rw [min_eq_right h]; exact min_le_right _ _
        _ ≤ clamp_ch_temp (c + (y - a) / (b - a) * (d - c)) := clamp_ch_temp_mono h1
    · calc clamp_ch_temp (c + (y - a) / (b - a) * (d - c))
          ≤ clamp_ch_temp (max c d) := clamp_ch_temp_mono h2
        _ ≤ max (clamp_ch_temp c) (clamp_ch_temp d) := by
            rcases le_total c d with h | h
            · rw [max_eq_right h]; exact le_max_right _ _
            · rw [max_eq_left h]; exact le_max_left _ _

unseal Rat.add Rat.sub Rat.mul Rat.inv in
theorem point_curve_segment_monotone_witness :
    calculate_point_curve (-2) [] ≤ calculate_point_curve (-5) [] := by
  have h := (point_curve_segment_monotone [] 1 (-5) (-2)
    (by decide) (by decide) (by decide) (by decide)).1
  exact h (by decide)

/-! ## Register link (modbus_client.py) -/

/-- High-byte preservation for a single 16-bit word (async_write_core,
modbus_client.py lines 354-370): when the new word's high byte is zero and
the currently stored word's high byte is non-zero, OR the stored high byte
back into the new word. -/
def patchWord (val curr : ℕ) : ℕ :=
  if val &&& 0xFF00 = 0 ∧ curr &&& 0xFF00 ≠ 0 then val ||| (curr &&& 0xFF00) else val

/-- Word-by-word high-byte patch of a new block against the current block. -/
def patchCore (values current : List ℕ) : List ℕ :=
  List.zipWith patchWord values current

/-- async_write_core (modbus_client.py lines 339-373): reject blocks whose
length is not the nominal core count; if the current block could be read back
(Python truthiness: non-None and non-empty), patch each word; the returned
list is the block sent on the wire. The model takes the read-back result as
an argument; when present it is a successfully read core block. -/
def async_write_core (values : List ℕ) (current : Option (List ℕ)) : Option (List ℕ) :=
  if values.length = REG_CORE_COUNT then
    some (match current with
      | some c => if c.isEmpty then values else patchCore values c
      | none => values)
  else none

lemma patchCore_length (values : List ℕ) :
    ∀ current : List ℕ, values.length = current.length →
      (patchCore values current).length = values.length := by
  induction values with
  | nil => intro current _; simp [patchCore]
  | cons v vs ih =>
    intro current h
    cases current with
    | nil => simp at h
    | cons c cs =>
      simp only [patchCore, List.zipWith_cons_cons, List.length_cons] at h ⊢
      have := ih cs (by omega)
      simp only [patchCore] at this
      omega

lemma patchCore_getD (values : List ℕ) :
    ∀ (current : List ℕ) (i : ℕ), i < values.length → i < current.length →
      (patchCore values current).getD i 0 =
        patchWord (values.getD i 0) (current.getD i 0) := by
  induction values with
  | nil => intro current i h1 _; simp at h1
  | cons v vs ih =>
    intro current i h1 h2
    cases current with
    | nil => simp at h2
    | cons c cs =>
      cases i with
      | zero => simp [patchCore, List.zipWith_cons_cons, List.getD_cons_zero]
      | succ j =>
        simp only [patchCore, List.zipWith_cons_cons, List.getD_cons_succ]
        have hj1 : j < vs.length := by simpa using h1
        have hj2 : j < cs.length := by simpa using h2
        exact ih cs j hj1 hj2

/-- C5: for every new core block of the correct length and every successfully
read current block, the write patches each word independently: a new word with
a zero high byte whose stored counterpart has a non-zero high byte is OR-ed
with the stored high byte; all other words go out unchanged. -/
theorem write_core_high_byte_patch (values current : List ℕ)
    (hv : values.length = REG_CORE_COUNT) (hc : current.length = REG_CORE_COUNT) :
    ∃ wire, async_write_core values (some current) = some wire ∧
      wire.length = REG_CORE_COUNT ∧
      ∀ i : ℕ, i < REG_CORE_COUNT →
        wire.getD i 0 =
          if values.getD i 0 &&& 0xFF00 = 0 ∧ current.getD i 0 &&& 0xFF00 ≠ 0 then
            values.getD i 0 ||| (current.getD i 0 &&& 0xFF00)
          else values.getD i 0 := by
  have hlen : values.length = current.length := by rw [hv, hc]
  refine ⟨patchCore values current, ?_, ?_, ?_⟩
  · unfold async_write_core
    rw [if_pos hv]
    have hne : current.isEmpty = false := by
      cases current with
      | nil => simp [REG_CORE_COUNT] at hc
      | cons a l => simp
    dsimp only
    rw [hne]
    simp
  · rw [patchCore_length values current hlen, hv]
  · intro i hilt
    rw [patchCore_getD values current i (by omega) (by omega)]
    rfl

theorem write_core_high_byte_patch_witness :
    ∃ wire,
      async_write_core [0x0005, 0, 0, 0, 0, 0]
          (some [0x0305, 0x1111, 2, 3, 4, 5]) = some wire ∧
      wire.length = REG_CORE_COUNT ∧
      ∀ i : ℕ, i < REG_CORE_COUNT →
        wire.getD i 0 =
          if [0x0005, 0, 0, 0, 0, 0].getD i 0 &&& 0xFF00 = 0 ∧
              [0x0305, 0x1111, 2, 3, 4, 5].getD i 0 &&& 0xFF00 ≠ 0 then
            [0x0005, 0, 0, 0, 0, 0].getD i 0 |||
              ([0x0305, 0x1111, 2, 3, 4, 5].getD i 0 &&& 0xFF00)
          else [0x0005, 0, 0, 0, 0, 0].getD i 0 :=
  write_core_high_byte_patch [0x0005, 0, 0, 0, 0, 0] [0x0305, 0x1111, 2, 3, 4, 5] rfl rfl

example : async_write_core [0x0005, 0, 0, 0, 0, 0] (some [0x0305, 0x1111, 2, 3, 4, 5]) =
    some [0x0305, 0x1100, 0, 0, 0, 0] := by decide

/-- Outcome of a Modbus request as seen by _write_registers: a missing
(None) response, a response whose isError() is true, an exception raised by
the client call (a dead link, caught by the except clause at modbus_client.py
lines 306-315), or a successful payload. -/
inductive ModbusResponse (α : Type)
  | missing
  | isError
  | raised
  | ok (payload : α)

/-- Result of one iteration of the retry loop body. -/
inductive WriteStepResult
  | retry
  | done (success : Bool)
deriving DecidableEq

/-- The write-then-verify body of _write_registers (modbus_client.py lines
259-315): a missing or error write response, or an exception from the write
call, forces a reconnect and another attempt; after a successful write the
verification read-back is performed and the function returns True whether
the read-back returned an error, nothing, mismatching values or matching
values — but an exception raised by the read-back itself is caught by the
same except clause (lines 306-315) and re-enters the retry loop, re-issuing
the whole write. -/
def write_verify_step (values : List ℕ) (writeResp : ModbusResponse Unit)
    (verifyResp : ModbusResponse (List ℕ)) : WriteStepResult :=
  match writeResp with
  | .missing => .retry
  | .isError => .retry
  | .raised => .retry
  | .ok _ =>
    match verifyResp with
    | .missing => .done true
    | .isError => .done true
    | .raised => .retry
    | .ok regs => if regs ≠ values then .done true else .done true

/-- The retry loop of _write_registers (modbus_client.py lines 216-318),
restricted to the write-and-verify body: each remaining attempt is
summarized by its write response and its verification read-back outcome;
a retrying attempt moves on to the next, and exhausting the attempts
returns False (line 318). -/
def write_registers_loop (values : List ℕ) :
    List (ModbusResponse Unit × ModbusResponse (List ℕ)) → Bool
  | [] => false
  | (w, v) :: rest =>
    match write_verify_step values w v with
    | .done b => b
    | .retry => write_registers_loop values rest

/-- C8 counterexample: a successful write whose verification read-back
raises (the dead-link failure mode the code catches at lines 306-315) does
not report success: the attempt retries, and when every remaining attempt
fails the operation reports failure despite the successful write. -/
theorem write_verify_exception_counterexample :
    write_verify_step [1, 2, 3, 4, 5, 6] (.ok ()) .raised = .retry ∧
    write_verify_step [1, 2, 3, 4, 5, 6] (.ok ()) .raised ≠ .done true ∧
    write_registers_loop [1, 2, 3, 4, 5, 6]
      [(.ok (), .raised), (.isError, .missing), (.isError, .missing)] = false := by
  refine ⟨rfl, by decide, rfl⟩

/-- C8 (amended): whenever the register write succeeds and the verification
read-back returns rather than raises, the operation reports success
regardless of the read-back's content: a missing read-back response, an
error response, and values differing from what was written all yield an
immediate successful result, whatever attempts would have remained; a
read-back that raises an exception instead re-enters the retry loop, so the
overall result is that of re-attempting the whole write. -/
theorem write_reports_success_despite_verify (values regs : List ℕ)
    (rest : List (ModbusResponse Unit × ModbusResponse (List ℕ))) :
    write_verify_step values (.ok ()) (.ok regs) = .done true ∧
    write_verify_step values (.ok ()) .missing = .done true ∧
    write_verify_step values (.ok ()) .isError = .done true ∧
    write_registers_loop values ((ModbusResponse.ok (), ModbusResponse.ok regs) :: rest) = true ∧
    write_registers_loop values ((ModbusResponse.ok (), ModbusResponse.missing) :: rest) = true ∧
    write_registers_loop values ((ModbusResponse.ok (), ModbusResponse.isError) :: rest) = true ∧
    write_verify_step values (.ok ()) .raised = .retry ∧
    write_registers_loop values ((ModbusResponse.ok (), ModbusResponse.raised) :: rest) =
      write_registers_loop values rest := by
  have h1 : write_verify_step values (.ok ()) (.ok regs) = .done true := by
    simp [write_verify_step]
  refine ⟨h1, rfl, rfl, ?_, rfl, rfl, rfl, rfl⟩
  unfold write_registers_loop
  rw [h1]

/-- Rate limiting before a write (modbus_client.py lines 222-225): entering
with monotonic clock value now and recorded last successful write completion
time, sleep until the minimum interval has elapsed; the returned instant is
when the write command is sent. -/
def write_send_moment (now lastWriteTime : ℚ) : ℚ :=
  if now - lastWriteTime < MIN_WRITE_INTERVAL then
    now + (MIN_WRITE_INTERVAL - (now - lastWriteTime))
  else now

/-- C9: for two back-to-back writes, the second write command is sent at
least MIN_WRITE_INTERVAL = 5 seconds after the completion instant of the
first successful write (which _write_registers records in _last_write_time),
for every pair of clock readings. -/
theorem write_rate_limit_interval (t1 t2 : ℚ) :
    t1 + MIN_WRITE_INTERVAL ≤ write_send_moment t2 t1 := by
  unfold write_send_moment
  split_ifs with h
  · linarith
  · linarith

/-! ## Device snapshot and polling coordinator (coordinator.py) -/

/-- The fields of the coordinator's decoded snapshot that the antifreeze
controller reads (coordinator.py builds a larger map; unread fields are
omitted from the model). None models both a missing key and a None value. -/
structure Snapshot where
  state : Option String
  ch_temp : Option ℚ
  dhw_current : Option ℚ
  twi : Option ℚ
  two : Option ℚ
  core : Option (List ℕ)
  antifreeze_active : Bool
deriving DecidableEq

def emptySnap : Snapshot :=
  { state := none, ch_temp := none, dhw_current := none,
    twi := none, two := none, core := none, antifreeze_active := false }

/-- Outcome of one _async_update_data cycle. -/
inductive CoordOutcome
  | fresh (snap : Snapshot)
  | stale (snap : Snapshot)
  | updateFailed
deriving DecidableEq

/-- The core-read portion of _async_update_data (coordinator.py lines 84-106):
on a failed core read increment the consecutive-failure counter, raise a hard
update failure when it exceeds 5, otherwise return the previous snapshot when
one is available (a missing or empty previous dict raises instead); on a
successful read reset the counter and decode the cycle (decoding abstracted
as a function of the core block). First component of the result is the new
consecutive-failure counter. -/
def async_update_data (failures : ℕ) (prev : Option Snapshot)
    (coreRead : Option (List ℕ)) (decodeRest : List ℕ → Snapshot) :
    ℕ × CoordOutcome :=
  match coreRead with
  | none =>
    let f := failures + 1
    if 5 < f then (f, .updateFailed)
    else
      match prev with
      | some d => (f, .stale d)
      | none => (f, .updateFailed)
  | some core => (0, .fresh (decodeRest core))

/-- C4 counterexample: on the failure that brings the consecutive-failure
counter exactly to 5 with a previous snapshot available, the coordinator
still returns the stale snapshot instead of raising, contradicting the
claim that reaching 5 raises a hard update failure. -/
theorem coord_escalation_counterexample :
    (async_update_data 4 (some emptySnap) none fun _ => emptySnap).1 = 5 ∧
    (async_update_data 4 (some emptySnap) none fun _ => emptySnap).2 =
      CoordOutcome.stale emptySnap ∧
    (async_update_data 4 (some emptySnap) none fun _ => emptySnap).2 ≠
      CoordOutcome.updateFailed := by
  refine ⟨rfl, rfl, by decide⟩

/-- C4 (amended): on a failed core read the counter is incremented; while the
incremented counter is at most 5 and a previous snapshot exists the previous
snapshot is returned unchanged (stale), and once the incremented counter
exceeds 5 (the sixth consecutive failure) a hard update failure is raised. -/
theorem coord_failure_escalation (failures : ℕ) (prev : Option Snapshot)
    (decodeRest : List ℕ → Snapshot) :
    (async_update_data failures prev none decodeRest).1 = failures + 1 ∧
    (failures + 1 ≤ 5 → ∀ d, prev = some d →
      (async_update_data failures prev none decodeRest).2 = .stale d) ∧
    (5 < failures + 1 →
      (async_update_data failures prev none decodeRest).2 = .updateFailed) := by
  unfold async_update_data
  dsimp only
  refine ⟨?_, ?_, ?_⟩
  · split_ifs with h
    · rfl
    · cases prev <;> rfl
  · intro hle d hd
    subst hd
    rw [if_neg (by omega)]
  · intro hgt
    rw [if_pos hgt]

theorem coord_failure_escalation_witness :
    (async_update_data 0 (some emptySnap) none fun _ => emptySnap).2 =
      CoordOutcome.stale emptySnap :=
  (coord_failure_escalation 0 (some emptySnap) fun _ => emptySnap).2.1
    (by omega) emptySnap rfl

/-- C10: when the core read fails and no previous snapshot exists, the
coordinator raises a hard update failure immediately even though the
incremented counter is still at or below the escalation threshold. -/
theorem coord_first_poll_failure (failures : ℕ) (decodeRest : List ℕ → Snapshot)
    (h : failures + 1 ≤ 5) :
    (async_update_data failures none none decodeRest).2 = .updateFailed := by
  unfold async_update_data
  dsimp only
  rw [if_neg (by omega)]

theorem coord_first_poll_failure_witness :
    (async_update_data 0 none none fun _ => emptySnap).2 = CoordOutcome.updateFailed :=
  coord_first_poll_failure 0 (fun _ => emptySnap) (by omega)

/-! ## Antifreeze controller (AntifreezeManager, custom_components/haier_heatpump/init file)

The PyHaier codec calls (SetCHTemp, SetState) and the Modbus reads performed
inside the manager are modelled as an environment of uninterpreted functions
and prescribed read results; writes are collected as a list of register
blocks in the order issued. -/

/-- The manager's mutable fields (lines 150-153). -/
structure AfState where
  active : Bool
  emergency : Bool
  saved_ch_temp : Option ℚ
  saved_state : Option String
deriving DecidableEq

def initialAfState : AfState :=
  { active := false, emergency := false, saved_ch_temp := none, saved_state := none }

/-- The four configured thresholds (async_check lines 183-194). -/
structure AfConfig where
  warning : ℚ
  critical : ℚ
  emergencyCh : ℚ
  recovery : ℚ

/-- External collaborators of the manager during one check cycle: the codec
set-operations (none models a non-list codec result or a codec exception),
the result of each core re-read the manager may perform, and whether the
external demand signal is currently on (demand switch configured and in
state "on"). -/
structure AfEnv where
  setCHTemp : List ℕ → ℚ → Option (List ℕ)
  setState : List ℕ → String → Option (List ℕ)
  readCoreOnActivate : Option (List ℕ)
  readCoreBeforeRestore : Option (List ℕ)
  readCoreAfterRestore : Option (List ℕ)
  readCoreBeforeOff : Option (List ℕ)
  demandOn : Bool

/-- Python "if fresh_core:" — a None or empty read keeps the old block. -/
def freshCoreOr (r : Option (List ℕ)) (core : List ℕ) : List ℕ :=
  match r with
  | some l => if l.isEmpty then core else l
  | none => core

/-- The water temperatures available in a snapshot, in the order the code
collects them: twi, two, dhw_current (async_check lines 197-201). -/
def waterTemps (snap : Snapshot) : List ℚ :=
  [snap.twi, snap.two, snap.dhw_current].filterMap id

def minOfList (t : ℚ) (ts : List ℚ) : ℚ := ts.foldl min t

/-- Contiguous-substring test on character lists. -/
def hasSubstr (pat : List Char) : List Char → Bool
  | [] => pat.isEmpty
  | c :: rest => List.isPrefixOf pat (c :: rest) || hasSubstr pat rest

/-- Python: state truthy and "OFF" contained in str(state).upper(). -/
def stateHasOFF (s : Option String) : Bool :=
  match s with
  | none => false
  | some str => !str.isEmpty && hasSubstr "OFF".toList str.toUpper.toList

/-- The body of _async_set_emergency_temp (lines 288-307): compose the
clamped temperature against the snapshot's core block via the codec and
issue one write when the codec returns a list. -/
def set_emergency_temp_writes (env : AfEnv) (snap : Snapshot) (t : ℚ) : List (List ℕ) :=
  match snap.core with
  | none => []
  | some core =>
    match env.setCHTemp core (clamp_ch_temp t) with
    | some nt => [nt]
    | none => []

/-- _async_activate (lines 251-286): save the commanded CH temperature and
run-state, abort if no core block; mark active; if the device reports an OFF
state command it on (codec SetState "HT") and re-read the core into the
snapshot; finally apply the emergency temperature when one was given. -/
def activate (env : AfEnv) (st : AfState) (snap : Snapshot) (emergencyTemp : Option ℚ) :
    AfState × Snapshot × List (List ℕ) :=
  let st1 : AfState := { st with saved_ch_temp := snap.ch_temp, saved_state := snap.state }
  match snap.core with
  | none => (st1, snap, [])
  | some core0 =>
    let st2 : AfState := { st1 with active := true }
    let onResult : Snapshot × List (List ℕ) :=
      if stateHasOFF snap.state then
        match env.setState core0 "HT" with
        | some ns =>
          (match env.readCoreOnActivate with
           | some l => if l.isEmpty then (snap, [ns]) else ({ snap with core := some l }, [ns])
           | none => (snap, [ns]))
        | none => (snap, [])
      else (snap, [])
    let writes2 : List (List ℕ) :=
      match emergencyTemp with
      | some t => set_emergency_temp_writes env onResult.1 t
      | none => []
    (st2, onResult.1, onResult.2 ++ writes2)

/-- The restore block of _async_deactivate (lines 323-345): re-read the core
(keeping the old block if the read fails), compose the clamped saved CH
temperature via the codec, write it when the codec returns a list, and
re-read the core again after a successful write. Returns the final current
core block and the writes issued. -/
def restoreStep (env : AfEnv) (core0 : List ℕ) (saved : ℚ) : List ℕ × List (List ℕ) :=
  let coreA := freshCoreOr env.readCoreBeforeRestore core0
  match env.setCHTemp coreA (clamp_ch_temp saved) with
  | some nt => (freshCoreOr env.readCoreAfterRestore coreA, [nt])
  | none => (coreA, [])

/-- The power-off block of _async_deactivate (lines 347-367): only when no
external demand signal is on, re-read the core and command the device off
via the codec. -/
def offStep (env : AfEnv) (core1 : List ℕ) : List (List ℕ) :=
  if env.demandOn then []
  else
    match env.setState (freshCoreOr env.readCoreBeforeOff core1) "off" with
    | some ns => [ns]
    | none => []

/-- _async_deactivate (lines 309-373): without a core block only the active
and emergency flags are dropped (saved values are NOT cleared on this path);
otherwise restore the saved CH temperature when the emergency override was
applied, command the device off unless demand is on, and clear all state. -/
def deactivate (env : AfEnv) (st : AfState) (snap : Snapshot) :
    AfState × Snapshot × List (List ℕ) :=
  match snap.core with
  | none => ({ st with active := false, emergency := false }, snap, [])
  | some core0 =>
    match st.saved_ch_temp, st.emergency with
    | some saved, true =>
      (initialAfState,
       { snap with core := some (restoreStep env core0 saved).1, antifreeze_active := false },
       (restoreStep env core0 saved).2 ++ offStep env (restoreStep env core0 saved).1)
    | _, _ =>
      (initialAfState,
       { snap with core := some core0, antifreeze_active := false },
       offStep env core0)

/-- async_check (lines 173-249) with the created tasks inlined at their
creation points: the check itself runs synchronously (skipping when no water
temperature is available, setting the emergency flag, annotating the snapshot
with the current active flag) and the activation, emergency-temperature or
deactivation task then runs on the annotated snapshot. -/
def checkAndRun (cfg : AfConfig) (env : AfEnv) (st : AfState) (snap : Snapshot) :
    AfState × Snapshot × List (List ℕ) :=
  match waterTemps snap with
  | [] => (st, snap, [])
  | t :: ts =>
    let minT := minOfList t ts
    if st.active then
      if (t :: ts).all (fun x => decide (cfg.recovery < x)) then
        deactivate env st { snap with antifreeze_active := st.active }
      else if minT < cfg.critical ∧ st.emergency = false then
        let st1 : AfState := { st with emergency := true }
        let snap1 := { snap with antifreeze_active := st1.active }
        (st1, snap1, set_emergency_temp_writes env snap1 cfg.emergencyCh)
      else (st, { snap with antifreeze_active := st.active }, [])
    else
      if minT < cfg.critical then
        let st1 : AfState := { st with emergency := true }
        let snap1 := { snap with antifreeze_active := st1.active }
        activate env st1 snap1 (some cfg.emergencyCh)
      else if minT < cfg.warning then
        activate env st { snap with antifreeze_active := st.active } none
      else (st, { snap with antifreeze_active := st.active }, [])

/-- The three spec-level states of the controller. -/
inductive AfPhase
  | inactive
  | active
  | emergency
deriving DecidableEq

def afPhase (st : AfState) : AfPhase :=
  if st.active then (if st.emergency then .emergency else .active) else .inactive

/-- Run successive checks over a sequence of snapshots, returning the state
after each check. -/
def runSeq (cfg : AfConfig) (env : AfEnv) : AfState → List Snapshot → List AfState
  | _, [] => []
  | st, s :: rest =>
    (checkAndRun cfg env st s).1 :: runSeq cfg env (checkAndRun cfg env st s).1 rest

/-- The thresholds of the C1 scenario (also the const.py defaults):
warning 5, critical 2, emergency CH 30, recovery 20. -/
def c1Cfg : AfConfig :=
  { warning := DEFAULT_ANTIFREEZE_WARNING_TEMP,
    critical := DEFAULT_ANTIFREEZE_CRITICAL_TEMP,
    emergencyCh := DEFAULT_ANTIFREEZE_EMERGENCY_CH_TEMP,
    recovery := DEFAULT_ANTIFREEZE_RECOVERY_TEMP }

/-- A benign environment for the C1 scenario: the codec always yields a
block, re-reads fail (keeping the current block), no demand. -/
def c1Env : AfEnv :=
  { setCHTemp := fun _ _ => some [0, 0, 0, 0, 0, 0],
    setState := fun _ _ => some [0, 0, 0, 0, 0, 0],
    readCoreOnActivate := none,
    readCoreBeforeRestore := none,
    readCoreAfterRestore := none,
    readCoreBeforeOff := none,
    demandOn := false }

/-- A snapshot whose only water temperature (twi) is the given value. -/
def c1Snap (t : ℚ) : Snapshot :=
  { state := some "HT", ch_temp := some 35, dhw_current := none,
    twi := some t, two := none, core := some [1, 2, 3, 4, 5, 6],
    antifreeze_active := false }

unseal Rat.add Rat.sub Rat.mul Rat.inv in
/-- C1: with warning 5, critical 2, recovery 20, feeding minimum water
temperatures 6, 4, 1, 3, 21 through successive checks starting Inactive
yields Inactive after 6, Active after 4, Emergency after 1, still Emergency
after 3, and Inactive after 21. -/
theorem antifreeze_scenario_sequence :
    afPhase initialAfState = AfPhase.inactive ∧
    (runSeq c1Cfg c1Env initialAfState ([6, 4, 1, 3, 21].map c1Snap)).map afPhase =
      [AfPhase.inactive, AfPhase.active, AfPhase.emergency,
       AfPhase.emergency, AfPhase.inactive] := by
  exact ⟨rfl, by decide⟩

/-- C3: in an active episode, when every available water temperature exceeds
the recovery threshold the check deactivates: the emergency temperature
restore (when the override was applied) re-reads the current core block and
issues the clamped saved CH temperature as the first write; with the demand
signal on no further write is issued (no off command); with the demand signal
off the off command follows, composed against a freshly re-read block; and
all saved state is cleared, ending Inactive. -/
theorem antifreeze_recovery_deactivation
    (cfg : AfConfig) (env : AfEnv) (st : AfState) (snap : Snapshot)
    (core0 : List ℕ) (t : ℚ) (ts : List ℚ)
    (hactive : st.active = true)
    (hw : waterTemps snap = t :: ts)
    (hrec : ∀ x ∈ t :: ts, cfg.recovery < x)
    (hcore : snap.core = some core0) :
    checkAndRun cfg env st snap =
      deactivate env st { snap with antifreeze_active := true } ∧
    (checkAndRun cfg env st snap).1 = initialAfState ∧
    (∀ s nt, st.emergency = true → st.saved_ch_temp = some s →
      env.setCHTemp (freshCoreOr env.readCoreBeforeRestore core0)
          (clamp_ch_temp s) = some nt →
      (checkAndRun cfg env st snap).2.2.head? = some nt) ∧
    (env.demandOn = true → ∀ w ∈ (checkAndRun cfg env st snap).2.2,
      ∃ s, st.saved_ch_temp = some s ∧ st.emergency = true ∧
        env.setCHTemp (freshCoreOr env.readCoreBeforeRestore core0)
          (clamp_ch_temp s) = some w) ∧
    (env.demandOn = false → ∀ s nt, st.emergency = true → st.saved_ch_temp = some s →
      env.setCHTemp (freshCoreOr env.readCoreBeforeRestore core0)
          (clamp_ch_temp s) = some nt →
      (checkAndRun cfg env st snap).2.2 =
        nt :: (match env.setState (freshCoreOr env.readCoreBeforeOff
            (freshCoreOr env.readCoreAfterRestore
              (freshCoreOr env.readCoreBeforeRestore core0))) "off" with
          | some ns => [ns]
          | none => [])) := by
  have hall : ((t :: ts).all fun x => decide (cfg.recovery < x)) = true := by
    rw [List.all_eq_true]
    intro x hx
    exact decide_eq_true (hrec x hx)
  have step1 : checkAndRun cfg env st snap =
      deactivate env st { snap with antifreeze_active := true } := by
    unfold checkAndRun
    rw [hw]
    dsimp only
    rw [hactive, hall]
    rfl
  have hcore2 : ({ snap with antifreeze_active := true } : Snapshot).core = some core0 := hcore
  refine ⟨step1, ?_, ?_, ?_, ?_⟩
  · rw [step1]
    unfold deactivate
    rw [hcore2]
    rcases st.saved_ch_temp with _ | s
    · rfl
    · cases st.emergency
      · rfl
      · rfl
  · intro s nt hem hsv hset
    rw [step1]
    unfold deactivate
    rw [hcore2, hsv, hem]
    dsimp only
    unfold restoreStep
    dsimp only
    rw [hset]
    rfl
  · intro hdem w hmem
    rw [step1] at hmem
    unfold deactivate at hmem
    rw [hcore2] at hmem
    dsimp only at hmem
    have hoff : ∀ c, offStep env c = [] := fun c => by
      unfold offStep
      rw [hdem]
      rfl
    rcases hsv : st.saved_ch_temp with _ | s
    · rw [hsv] at hmem
      rcases hem2 : st.emergency with _ | _
      · rw [hem2] at hmem
        dsimp only at hmem
        rw [hoff] at hmem
        simp at hmem
      · rw [hem2] at hmem
        dsimp only at hmem
        rw [hoff] at hmem
        simp at hmem
    · rw [hsv] at hmem
      rcases hem2 : st.emergency with _ | _
      · rw [hem2] at hmem
        dsimp only at hmem
        rw [hoff] at hmem
        simp at hmem
      · rw [hem2] at hmem
        dsimp only at hmem
        unfold restoreStep at hmem
        dsimp only at hmem
        rcases hset : env.setCHTemp (freshCoreOr env.readCoreBeforeRestore core0)
            (clamp_ch_temp s) with _ | nt
        · rw [hset] at hmem
          dsimp only at hmem
          rw [hoff] at hmem
          simp at hmem
        · rw [hset] at hmem
          dsimp only at hmem
          rw [hoff] at hmem
          simp only [List.append_nil, List.mem_singleton] at hmem
          subst hmem
          exact ⟨s, rfl, rfl, hset⟩
  · intro hdem s nt hem hsv hset
    rw [step1]
    unfold deactivate
    rw [hcore2, hsv, hem]
    dsimp only
    unfold restoreStep
    dsimp only
    rw [hset]
    dsimp only
    unfold offStep
    rw [hdem]
    rfl

def c3St : AfState :=
  { active := true, emergency := true, saved_ch_temp := some 35, saved_state := some "HT" }

def c3Snap : Snapshot :=
  { state := some "HT", ch_temp := some 30, dhw_current := none,
    twi := some 21, two := some 22, core := some [1, 2, 3, 4, 5, 6],
    antifreeze_active := true }

def c3Env : AfEnv :=
  { setCHTemp := fun _ _ => some [7, 7, 7, 7, 7, 7],
    setState := fun _ _ => some [8, 8, 8, 8, 8, 8],
    readCoreOnActivate := none,
    readCoreBeforeRestore := some [9, 9, 9, 9, 9, 9],
    readCoreAfterRestore := none,
    readCoreBeforeOff := none,
    demandOn := false }

theorem antifreeze_recovery_deactivation_witness :
    (checkAndRun c1Cfg c3Env c3St c3Snap).1 = initialAfState :=
  (antifreeze_recovery_deactivation c1Cfg c3Env c3St c3Snap [1, 2, 3, 4, 5, 6]
    21 [22] rfl rfl (by decide) rfl).2.1

end Haier
